import Mathlib

/-!
Verification of `packages/optimizer/lib/fetchRuntimeParameters.js`.

The module resolves three runtime parameters (validator rules, AMP runtime
version, AMP runtime CSS) from user input, a shared cache and network
capabilities.  The JavaScript is embedded shallowly: every `async` function
becomes a Lean function that threads an explicit state `St` (cache contents,
log lines, the sequence of capability invocations, the current time and the
caller-held parameter object) and returns `Except JsErr α` for a value or a
thrown exception.

External collaborators that are not part of the source file (the fetch
capability, the version source, the validator-rules provider, the URL parser)
are oracle functions carried by `Config` and `Env`.  The pieces of this
repository that the source imports but that are outside the analysed file
(`MaxAge` and `FileSystemCache` from toolbox-core, the constants of
`AmpConstants.js`) are modelled from the spec, each marked in its doc comment.
-/

set_option linter.unusedVariables false

namespace AmpOptimizer

/-- A thrown JavaScript exception: either a `TypeError` raised by accessing a
property of a non-object (tagged with the access that failed), or an error
value produced by an external capability. -/
inductive JsErr where
  | typeError (msg : String)
  | jsError (msg : String)
  deriving DecidableEq

/-- Modelled from the spec: the `MaxAge` stamp of `@ampproject/toolbox-core`
(not under the analysed sources).  Per the spec glossary it is a creation
timestamp plus a duration; `toJson`/`fromJson` round-trip it unchanged, so the
stamp itself is stored in the cache. -/
structure MaxAgeStamp where
  createdAt : Nat
  maxAge : Nat
  deriving DecidableEq

/-- Modelled from the spec: `MaxAge.create(d)` stamps the current time. -/
def MaxAgeStamp.create (now : Nat) (d : Nat) : MaxAgeStamp := ⟨now, d⟩

/-- Modelled from the spec: an entry is stale once `now > createdAt + duration`. -/
def MaxAgeStamp.isExpired (m : MaxAgeStamp) (now : Nat) : Bool :=
  decide (m.createdAt + m.maxAge < now)

/-- A value stored in the shared cache: either a plain string (runtime CSS, raw
validator rules) or the version record `{version, maxAge}` written by
`fetchLatestRuntimeData_`. -/
inductive CacheValue where
  | str (s : String)
  | record (version : String) (maxAge : MaxAgeStamp)
  deriving DecidableEq

/-- The RuleSet produced by the validator-rules provider: it exposes the
serializable `raw` form; `rules` stands for the remaining parsed content. -/
structure RuleSet where
  raw : String
  rules : String
  deriving DecidableEq

/-- A fetch response, exposing `.ok` and the body text. -/
structure Response where
  ok : Bool
  text : String
  deriving DecidableEq

/-- The argument object `{ampUrlPrefix, lts}` passed to
`config.runtimeVersion.currentVersion`. -/
structure VersionArgs where
  ampUrlPrefix : Option String
  lts : Bool
  deriving DecidableEq

/-- The runtime-parameters object.  `none` is JavaScript `undefined`; fields
assigned by the resolver become `some`.  `ampRuntimeStyles` holds a
`CacheValue` because the styles path returns whatever the cache holds under
the style URL. -/
structure RuntimeParams where
  verbose : Option Bool := none
  lts : Option Bool := none
  rtv : Option Bool := none
  validatorRules : Option RuleSet := none
  ampUrlPrefix : Option String := none
  ampRuntimeVersion : Option String := none
  ampRuntimeStyles : Option CacheValue := none
  deriving DecidableEq

/-- The AMP Optimizer config object.  Data fields mirror the properties the
source reads; `fetchO` and `currentVersionO` are the fetch and version-source
capabilities (`config.fetch`, `config.runtimeVersion.currentVersion`). -/
structure Config where
  verbose : Option Bool := none
  lts : Option Bool := none
  rtv : Option Bool := none
  validatorRules : Option RuleSet := none
  ampRuntimeVersion : Option String := none
  fetchO : String → Except JsErr Response
  currentVersionO : Option VersionArgs → Except JsErr String

/-- The dynamically-typed `config` parameter of `fetchAmpRuntimeStyles_` and
`downloadAmpRuntimeStyles_`: the retry inside the styles fallback passes the
string `AMP_CACHE_HOST` in the `config` position, so the parameter is either a
real config object or a string.  Accessing `.log`, `.fetch` or
`.runtimeVersion` on the string throws a `TypeError`. -/
inductive ConfigV where
  | obj (c : Config)
  | str (s : String)

/-- Module-level collaborators: the WHATWG `URL` parser used by
`_isAbsoluteUrl` (true iff `new URL(u)` succeeds) and the
`@ampproject/toolbox-validator-rules` provider (`none` = called with no
arguments, `some raw` = called with `{rules: raw}`). -/
structure Env where
  isAbsoluteUrl : String → Bool
  rulesFetch : Option CacheValue → Except JsErr RuleSet

/-- The mutable world: the shared cache (with the set of unreadable keys of
the spec's CacheUnavailable case), the current time, the log lines emitted via
`config.log`, the argument trace of each external capability, and the
caller-held `customRuntimeParameters` object (kept in the state so that
non-mutation of the caller's object is observable). -/
structure St where
  cache : String → Option CacheValue
  broken : String → Bool
  now : Nat
  log : List String
  versionLog : List (Option VersionArgs)
  fetchLog : List String
  rulesLog : List (Option CacheValue)
  customParams : RuntimeParams

def pushLog (s : St) (m : String) : St := {s with log := s.log ++ [m]}

def pushFetch (s : St) (u : String) : St := {s with fetchLog := s.fetchLog ++ [u]}

def pushVersion (s : St) (a : Option VersionArgs) : St :=
  {s with versionLog := s.versionLog ++ [a]}

def pushRules (s : St) (a : Option CacheValue) : St :=
  {s with rulesLog := s.rulesLog ++ [a]}

/-- Modelled from the spec: `FileSystemCache.get` of toolbox-core (not under
the analysed sources) returns the stored value or `undefined`; per the spec's
CacheUnavailable case an unreadable entry also yields `undefined` ("treated as
a Miss... never fatal"), so `get` never throws. -/
def cacheGet (s : St) (k : String) : Option CacheValue :=
  if s.broken k then none else s.cache k

/-- Modelled from the spec: `FileSystemCache.set` stores the value under the
key; a freshly written entry is readable again. -/
def cacheSet (s : St) (k : String) (v : CacheValue) : St :=
  {s with
    cache := fun q => if q = k then some v else s.cache q,
    broken := fun q => if q = k then false else s.broken q}

/-- JavaScript truthiness of a possibly-undefined string: `undefined` and the
empty string are falsy. -/
def jsTruthyStr : Option String → Bool
  | none => false
  | some x => !x.isEmpty

/-- JavaScript truthiness of a cache value: the empty string is falsy, all
other strings and any object are truthy. -/
def cvTruthy : CacheValue → Bool
  | .str x => !x.isEmpty
  | .record _ _ => true

/-- JavaScript truthiness of a possibly-undefined cache value. -/
def jsTruthyCV : Option CacheValue → Bool
  | none => false
  | some v => cvTruthy v

/-- `a || b || false` on possibly-undefined booleans. -/
def jsOrB (a b : Option Bool) : Bool := a.getD false || b.getD false

/-- JavaScript string coercion of a possibly-undefined string (template
literals and `+` turn `undefined` into `"undefined"`). -/
def jsStrOpt : Option String → String
  | none => "undefined"
  | some x => x

/-- JavaScript string coercion of a boolean. -/
def jsStrBool (b : Bool) : String := if b then "true" else "false"

/-- Modelled from the spec: `AMP_CACHE_HOST` of `AmpConstants.js` (not under
the analysed sources), the canonical CDN host. -/
def AMP_CACHE_HOST : String := "https://cdn.ampproject.org"

/-- Modelled from the spec: `AMP_RUNTIME_CSS_PATH` of `AmpConstants.js`, the
fixed CSS path suffix (the default URL is
`https://cdn.ampproject.org/rtv/VERSION/v0.css`). -/
def AMP_RUNTIME_CSS_PATH : String := "/v0.css"

/-- Modelled from the spec: `appendRuntimeVersion` of `AmpConstants.js`
composes the version-qualified URL `host/rtv/version`. -/
def appendRuntimeVersion (host : String) (version : Option String) : String :=
  host ++ "/rtv/" ++ jsStrOpt version

def KEY_VALIDATOR_RULES : String := "validator-rules"

/-- `10 * 60` seconds. -/
def AMP_RUNTIME_MAX_AGE : Nat := 10 * 60

/-- `ampUrlPrefix || AMP_CACHE_HOST`. -/
def jsOrHost : Option String → String
  | none => AMP_CACHE_HOST
  | some x => if x.isEmpty then AMP_CACHE_HOST else x

/-- The version cache key `context.ampUrlPrefix + '-' + context.lts`. -/
def versionKey (p : Option String) (l : Bool) : String :=
  jsStrOpt p ++ "-" ++ jsStrBool l

/-- The runtime CSS URL
`appendRuntimeVersion(ampUrlPrefix || AMP_CACHE_HOST, ampRuntimeVersion) + AMP_RUNTIME_CSS_PATH`. -/
def styleUrl (p : Option String) (v : Option String) : String :=
  appendRuntimeVersion (jsOrHost p) v ++ AMP_RUNTIME_CSS_PATH

/-- Invoke `config.runtimeVersion.currentVersion`; the call is recorded in the
state before the oracle's outcome (success or rejection) is returned. -/
def callCurrentVersion (c : Config) (a : Option VersionArgs) (s : St) :
    Except JsErr String × St :=
  (c.currentVersionO a, pushVersion s a)

/-- Invoke `validatorRulesProvider.fetch`, recording the call. -/
def callRulesProvider (e : Env) (a : Option CacheValue) (s : St) :
    Except JsErr RuleSet × St :=
  (e.rulesFetch a, pushRules s a)

/-- `config.fetch(url)` through the dynamically-typed config parameter:
on a string config, reading `.fetch` of a string and calling it throws. -/
def cfgvFetch (cv : ConfigV) (u : String) (s : St) : Except JsErr Response × St :=
  match cv with
  | .obj c => (c.fetchO u, pushFetch s u)
  | .str _ => (.error (.typeError "config.fetch"), s)

/-- `downloadAmpRuntimeStyles_(config, runtimeCssUrl)`: consult the cache; on
a falsy cached value invoke the fetch capability; a non-ok response yields
`null` (`.ok none`); an ok response's text is cached and returned. -/
def downloadAmpRuntimeStyles_ (cv : ConfigV) (runtimeCssUrl : String) (s : St) :
    Except JsErr (Option CacheValue) × St :=
  let styles := cacheGet s runtimeCssUrl
  if jsTruthyCV styles then (.ok styles, s)
  else
    match cfgvFetch cv runtimeCssUrl s with
    | (.error e, s₁) => (.error e, s₁)
    | (.ok response, s₁) =>
      if !response.ok then (.ok none, s₁)
      else (.ok (some (.str response.text)), cacheSet s₁ runtimeCssUrl (.str response.text))

/-- `fetchAmpRuntimeStyles_` specialised to a string in the `config` position
(the shape produced by the retry inside the fallback).  Every `config.log`,
`config.fetch` or `config.runtimeVersion` access throws a `TypeError`; in
particular the fallback's `config.log.error` throws before any further retry,
so this instance never recurses. -/
def fetchAmpRuntimeStylesStr (env : Env) (cs : String) (p v : Option String) (s : St) :
    Except JsErr CacheValue × St :=
  if jsTruthyStr p && !env.isAbsoluteUrl (p.getD "") then
    (.error (.typeError "config.log"), s)
  else
    match downloadAmpRuntimeStyles_ (.str cs) (styleUrl p v) s with
    | (.error e, s₁) => (.error e, s₁)
    | (.ok none, s₁) => (.error (.typeError "config.log"), s₁)
    | (.ok (some val), s₁) =>
      if cvTruthy val then (.ok val, s₁)
      else (.error (.typeError "config.log"), s₁)

/-- The fallback block of `fetchAmpRuntimeStyles_` (reached when the download
produced a falsy result): log the failure; if `ampUrlPrefix || ampRuntimeVersion`
is truthy, retry via `fetchAmpRuntimeStyles_(AMP_CACHE_HOST, await
config.runtimeVersion.currentVersion())` — note the source passes the host
string in the `config` position and leaves `ampRuntimeVersion` undefined —
otherwise return the empty string. -/
def stylesFallback (env : Env) (c : Config) (p v : Option String) (url : String) (s : St) :
    Except JsErr CacheValue × St :=
  let s₂ := pushLog s ("Could not download " ++ url)
  if jsTruthyStr p || jsTruthyStr v then
    match callCurrentVersion c none s₂ with
    | (.error e, s₃) => (.error e, s₃)
    | (.ok ver, s₃) => fetchAmpRuntimeStylesStr env AMP_CACHE_HOST (some ver) none s₃
  else (.ok (.str ""), s₂)

/-- `fetchAmpRuntimeStyles_` after the prefix-validation step, with a real
config object: build the runtime CSS URL, download, and on a falsy result
enter the fallback. -/
def fetchAmpRuntimeStylesRest (env : Env) (c : Config) (p v : Option String) (s : St) :
    Except JsErr CacheValue × St :=
  match downloadAmpRuntimeStyles_ (.obj c) (styleUrl p v) s with
  | (.error e, s₁) => (.error e, s₁)
  | (.ok none, s₁) => stylesFallback env c p v (styleUrl p v) s₁
  | (.ok (some val), s₁) =>
    if cvTruthy val then (.ok val, s₁)
    else stylesFallback env c p v (styleUrl p v) s₁

/-- `fetchAmpRuntimeStyles_(config, ampUrlPrefix, ampRuntimeVersion)`.  With a
real config: a truthy non-absolute `ampUrlPrefix` logs a warning, is replaced
by `AMP_CACHE_HOST`, and `ampRuntimeVersion` is kept if truthy, else resolved
via `config.runtimeVersion.currentVersion()`; then the download runs.  With a
string config the dedicated instance is used. -/
def fetchAmpRuntimeStyles_ (env : Env) (cv : ConfigV) (p v : Option String) (s : St) :
    Except JsErr CacheValue × St :=
  match cv with
  | .str cs => fetchAmpRuntimeStylesStr env cs p v s
  | .obj c =>
    if jsTruthyStr p && !env.isAbsoluteUrl (p.getD "") then
      let s₀ := pushLog s "AMP runtime styles cannot be fetched from relative ampUrlPrefix"
      if jsTruthyStr v then fetchAmpRuntimeStylesRest env c (some AMP_CACHE_HOST) v s₀
      else
        match callCurrentVersion c none s₀ with
        | (.error e, s₁) => (.error e, s₁)
        | (.ok ver, s₁) => fetchAmpRuntimeStylesRest env c (some AMP_CACHE_HOST) (some ver) s₁
    else fetchAmpRuntimeStylesRest env c p v s

/-- `fetchLatestRuntimeData_(versionKey, {config, ampUrlPrefix, lts})`: fetch
the current version, stamp it with `MaxAge.create(AMP_RUNTIME_MAX_AGE)` and
store the record under the key.  (The source's stray `console.log` writes to
stdout only and is not modelled.) -/
def fetchLatestRuntimeData_ (key : String) (c : Config) (p : Option String) (l : Bool)
    (s : St) : Except JsErr (String × MaxAgeStamp) × St :=
  match callCurrentVersion c (some ⟨p, l⟩) s with
  | (.error e, s₁) => (.error e, s₁)
  | (.ok version, s₁) =>
    let stamp := MaxAgeStamp.create s₁.now AMP_RUNTIME_MAX_AGE
    (.ok (version, stamp), cacheSet s₁ key (.record version stamp))

/-- `fetchAmpRuntimeVersion_({config, ampUrlPrefix, lts})`: on a falsy cached
value (absent entry or empty string) fetch and store the latest data; on a
stale record return the cached version while triggering the refresh without
awaiting its outcome; on a fresh record return it.  A truthy non-record value
at the key would send `undefined` into `MaxAge.fromJson`, modelled as the
`TypeError` that property access on `undefined` raises. -/
def fetchAmpRuntimeVersion_ (c : Config) (p : Option String) (l : Bool) (s : St) :
    Except JsErr String × St :=
  match cacheGet s (versionKey p l) with
  | none =>
    match fetchLatestRuntimeData_ (versionKey p l) c p l s with
    | (.error e, s₁) => (.error e, s₁)
    | (.ok d, s₁) => (.ok d.1, s₁)
  | some (.str x) =>
    if x.isEmpty then
      match fetchLatestRuntimeData_ (versionKey p l) c p l s with
      | (.error e, s₁) => (.error e, s₁)
      | (.ok d, s₁) => (.ok d.1, s₁)
    else (.error (.typeError "MaxAge.fromJson"), s)
  | some (.record ver m) =>
    if m.isExpired s.now then
      (.ok ver, (fetchLatestRuntimeData_ (versionKey p l) c p l s).2)
    else (.ok ver, s)

/-- The miss branch of `fetchValidatorRules_`: full provider fetch, then the
raw form is stored under `KEY_VALIDATOR_RULES`. -/
def fetchValidatorRulesMiss (env : Env) (s : St) : Except JsErr RuleSet × St :=
  match callRulesProvider env none s with
  | (.error e, s₁) => (.error e, s₁)
  | (.ok validatorRules, s₁) =>
    (.ok validatorRules, cacheSet s₁ KEY_VALIDATOR_RULES (.str validatorRules.raw))

/-- `fetchValidatorRules_()`: a falsy cached value (absent or empty string) is
a miss; otherwise the provider is invoked with the cached raw rules. -/
def fetchValidatorRules_ (env : Env) (s : St) : Except JsErr RuleSet × St :=
  match cacheGet s KEY_VALIDATOR_RULES with
  | none => fetchValidatorRulesMiss env s
  | some raw =>
    if cvTruthy raw then callRulesProvider env (some raw) s
    else fetchValidatorRulesMiss env s

/-- The opening of `fetchRuntimeParameters`: `Object.assign({}, custom)` and
the three `||`-precedence boolean assignments. -/
def initParams (c : Config) (custom : RuntimeParams) : RuntimeParams :=
  {custom with
    verbose := some (jsOrB custom.verbose c.verbose),
    lts := some (jsOrB custom.lts c.lts),
    rtv := some (jsOrB custom.rtv c.rtv)}

def msgValidator : String := "Could not fetch validator rules"

def msgVersion : String := "Could not fetch latest AMP runtime version"

def msgStyles : String := "Could not fetch AMP runtime CSS"

/-- The first try/catch block: `runtimeParameters.validatorRules =
config.validatorRules || (await fetchValidatorRules_())`; a thrown error is
logged and the assignment is skipped. -/
def validatorPhase (env : Env) (c : Config) (rp : RuntimeParams) (s : St) :
    RuntimeParams × St :=
  match c.validatorRules with
  | some vr => ({rp with validatorRules := some vr}, s)
  | none =>
    match fetchValidatorRules_ env s with
    | (.ok rs, s₁) => ({rp with validatorRules := some rs}, s₁)
    | (.error _, s₁) => (rp, pushLog s₁ msgValidator)

/-- The second try/catch block: `runtimeParameters.ampRuntimeVersion =
ampRuntimeVersion || (await fetchAmpRuntimeVersion_({config, ampUrlPrefix,
lts}))`.  The destructured `ampUrlPrefix`, `ampRuntimeVersion` and `lts` equal
the corresponding fields of `rp`, which the validator phase does not touch. -/
def versionPhase (c : Config) (rp : RuntimeParams) (s : St) : RuntimeParams × St :=
  if jsTruthyStr rp.ampRuntimeVersion then (rp, s)
  else
    match fetchAmpRuntimeVersion_ c rp.ampUrlPrefix (rp.lts.getD false) s with
    | (.ok v, s₁) => ({rp with ampRuntimeVersion := some v}, s₁)
    | (.error _, s₁) => (rp, pushLog s₁ msgVersion)

/-- The third try/catch block: `runtimeParameters.ampRuntimeStyles =
ampRuntimeStyles || (await fetchAmpRuntimeStyles_(config, ampUrlPrefix,
runtimeParameters.ampRuntimeVersion))`. -/
def stylesPhase (env : Env) (c : Config) (rp : RuntimeParams) (s : St) :
    RuntimeParams × St :=
  if jsTruthyCV rp.ampRuntimeStyles then (rp, s)
  else
    match fetchAmpRuntimeStyles_ env (.obj c) rp.ampUrlPrefix rp.ampRuntimeVersion s with
    | (.ok v, s₁) => ({rp with ampRuntimeStyles := some v}, s₁)
    | (.error _, s₁) => (rp, pushLog s₁ msgStyles)

/-- `fetchRuntimeParameters(config, customRuntimeParameters)`.  The caller's
parameter object is the state's `customParams` cell; the function copies it
and runs the three phases on the copy. -/
def fetchRuntimeParameters (env : Env) (c : Config) (s : St) :
    Except JsErr RuntimeParams × St :=
  let r₁ := validatorPhase env c (initParams c s.customParams) s
  let r₂ := versionPhase c r₁.1 r₁.2
  let r₃ := stylesPhase env c r₂.1 r₂.2
  (.ok r₃.1, r₃.2)


section BranchEquations

variable {env : Env} {c : Config} {cs u url : String} {p v : Option String} {s s₁ : St}
variable {e : JsErr} {r : Response} {val : CacheValue} {ver x : String} {l : Bool}

theorem dl_hit (cv : ConfigV) (h : jsTruthyCV (cacheGet s u) = true) :
    downloadAmpRuntimeStyles_ cv u s = (.ok (cacheGet s u), s) := by
  simp only [downloadAmpRuntimeStyles_, h, if_true]

theorem dl_str (h : jsTruthyCV (cacheGet s u) = false) :
    downloadAmpRuntimeStyles_ (.str cs) u s = (.error (.typeError "config.fetch"), s) := by
  simp only [downloadAmpRuntimeStyles_, cfgvFetch, h, Bool.false_eq_true, if_false]

theorem dl_err (h : jsTruthyCV (cacheGet s u) = false) (hf : c.fetchO u = .error e) :
    downloadAmpRuntimeStyles_ (.obj c) u s = (.error e, pushFetch s u) := by
  simp only [downloadAmpRuntimeStyles_, cfgvFetch, h, hf, Bool.false_eq_true, if_false]

theorem dl_notok (h : jsTruthyCV (cacheGet s u) = false) (hf : c.fetchO u = .ok r)
    (ho : r.ok = false) :
    downloadAmpRuntimeStyles_ (.obj c) u s = (.ok none, pushFetch s u) := by
  simp only [downloadAmpRuntimeStyles_, cfgvFetch, h, hf, ho, Bool.false_eq_true, if_false,
    Bool.not_false, if_true]

theorem dl_ok (h : jsTruthyCV (cacheGet s u) = false) (hf : c.fetchO u = .ok r)
    (ho : r.ok = true) :
    downloadAmpRuntimeStyles_ (.obj c) u s
      = (.ok (some (.str r.text)), cacheSet (pushFetch s u) u (.str r.text)) := by
  simp only [downloadAmpRuntimeStyles_, cfgvFetch, h, hf, ho, Bool.false_eq_true, if_false,
    Bool.not_true]

end BranchEquations

section BranchEquations2

variable {env : Env} {c : Config} {cs u url : String} {p v : Option String} {s s₁ : St}
variable {e : JsErr} {r : Response} {val raw : CacheValue} {ver x : String} {l : Bool}
variable {rs vr : RuleSet} {rp : RuntimeParams} {m : MaxAgeStamp}

theorem sstr_invalid (hp : jsTruthyStr p = true) (ha : env.isAbsoluteUrl (p.getD "") = false) :
    fetchAmpRuntimeStylesStr env cs p v s = (.error (.typeError "config.log"), s) := by
  simp only [fetchAmpRuntimeStylesStr, hp, ha, Bool.not_false, Bool.and_self, if_true]

theorem sstr_dlerr (h : (jsTruthyStr p && !env.isAbsoluteUrl (p.getD "")) = false)
    (hd : downloadAmpRuntimeStyles_ (.str cs) (styleUrl p v) s = (.error e, s₁)) :
    fetchAmpRuntimeStylesStr env cs p v s = (.error e, s₁) := by
  simp only [fetchAmpRuntimeStylesStr, h, Bool.false_eq_true, if_false, hd]

theorem sstr_dlnull (h : (jsTruthyStr p && !env.isAbsoluteUrl (p.getD "")) = false)
    (hd : downloadAmpRuntimeStyles_ (.str cs) (styleUrl p v) s = (.ok none, s₁)) :
    fetchAmpRuntimeStylesStr env cs p v s = (.error (.typeError "config.log"), s₁) := by
  simp only [fetchAmpRuntimeStylesStr, h, Bool.false_eq_true, if_false, hd]

theorem sstr_dlval_t (h : (jsTruthyStr p && !env.isAbsoluteUrl (p.getD "")) = false)
    (hd : downloadAmpRuntimeStyles_ (.str cs) (styleUrl p v) s = (.ok (some val), s₁))
    (ht : cvTruthy val = true) :
    fetchAmpRuntimeStylesStr env cs p v s = (.ok val, s₁) := by
  simp only [fetchAmpRuntimeStylesStr, h, Bool.false_eq_true, if_false, hd, ht, if_true]

theorem sstr_dlval_f (h : (jsTruthyStr p && !env.isAbsoluteUrl (p.getD "")) = false)
    (hd : downloadAmpRuntimeStyles_ (.str cs) (styleUrl p v) s = (.ok (some val), s₁))
    (ht : cvTruthy val = false) :
    fetchAmpRuntimeStylesStr env cs p v s = (.error (.typeError "config.log"), s₁) := by
  simp only [fetchAmpRuntimeStylesStr, h, Bool.false_eq_true, if_false, hd, ht]

theorem fb_noretry (hp : jsTruthyStr p = false) (hv : jsTruthyStr v = false) :
    stylesFallback env c p v url s = (.ok (.str ""), pushLog s ("Could not download " ++ url)) := by
  simp only [stylesFallback, hp, hv, Bool.or_self, Bool.false_eq_true, if_false]

theorem fb_retry_err (h : (jsTruthyStr p || jsTruthyStr v) = true)
    (hcv : c.currentVersionO none = .error e) :
    stylesFallback env c p v url s
      = (.error e, pushVersion (pushLog s ("Could not download " ++ url)) none) := by
  simp only [stylesFallback, callCurrentVersion, h, if_true, hcv]

theorem fb_retry (h : (jsTruthyStr p || jsTruthyStr v) = true)
    (hcv : c.currentVersionO none = .ok ver) :
    stylesFallback env c p v url s
      = fetchAmpRuntimeStylesStr env AMP_CACHE_HOST (some ver) none
          (pushVersion (pushLog s ("Could not download " ++ url)) none) := by
  simp only [stylesFallback, callCurrentVersion, h, if_true, hcv]

theorem rest_dlerr (hd : downloadAmpRuntimeStyles_ (.obj c) (styleUrl p v) s = (.error e, s₁)) :
    fetchAmpRuntimeStylesRest env c p v s = (.error e, s₁) := by
  simp only [fetchAmpRuntimeStylesRest, hd]

theorem rest_dlnull (hd : downloadAmpRuntimeStyles_ (.obj c) (styleUrl p v) s = (.ok none, s₁)) :
    fetchAmpRuntimeStylesRest env c p v s = stylesFallback env c p v (styleUrl p v) s₁ := by
  simp only [fetchAmpRuntimeStylesRest, hd]

theorem rest_dlval_t (hd : downloadAmpRuntimeStyles_ (.obj c) (styleUrl p v) s = (.ok (some val), s₁))
    (ht : cvTruthy val = true) :
    fetchAmpRuntimeStylesRest env c p v s = (.ok val, s₁) := by
  simp only [fetchAmpRuntimeStylesRest, hd, ht, if_true]

theorem rest_dlval_f (hd : downloadAmpRuntimeStyles_ (.obj c) (styleUrl p v) s = (.ok (some val), s₁))
    (ht : cvTruthy val = false) :
    fetchAmpRuntimeStylesRest env c p v s = stylesFallback env c p v (styleUrl p v) s₁ := by
  simp only [fetchAmpRuntimeStylesRest, hd, ht, Bool.false_eq_true, if_false]

theorem sty_str_eq :
    fetchAmpRuntimeStyles_ env (.str cs) p v s = fetchAmpRuntimeStylesStr env cs p v s := rfl

theorem sty_valid (h : (jsTruthyStr p && !env.isAbsoluteUrl (p.getD "")) = false) :
    fetchAmpRuntimeStyles_ env (.obj c) p v s = fetchAmpRuntimeStylesRest env c p v s := by
  simp only [fetchAmpRuntimeStyles_, h, Bool.false_eq_true, if_false]

theorem sty_invalid_vt (hp : jsTruthyStr p = true) (ha : env.isAbsoluteUrl (p.getD "") = false)
    (hv : jsTruthyStr v = true) :
    fetchAmpRuntimeStyles_ env (.obj c) p v s
      = fetchAmpRuntimeStylesRest env c (some AMP_CACHE_HOST) v
          (pushLog s "AMP runtime styles cannot be fetched from relative ampUrlPrefix") := by
  simp only [fetchAmpRuntimeStyles_, hp, ha, hv, Bool.not_false, Bool.and_self, if_true]

theorem sty_invalid_vf_err (hp : jsTruthyStr p = true) (ha : env.isAbsoluteUrl (p.getD "") = false)
    (hv : jsTruthyStr v = false) (hcv : c.currentVersionO none = .error e) :
    fetchAmpRuntimeStyles_ env (.obj c) p v s
      = (.error e, pushVersion
          (pushLog s "AMP runtime styles cannot be fetched from relative ampUrlPrefix") none) := by
  simp only [fetchAmpRuntimeStyles_, callCurrentVersion, hp, ha, hv, Bool.not_false,
    Bool.and_self, if_true, Bool.false_eq_true, if_false, hcv]

theorem sty_invalid_vf_ok (hp : jsTruthyStr p = true) (ha : env.isAbsoluteUrl (p.getD "") = false)
    (hv : jsTruthyStr v = false) (hcv : c.currentVersionO none = .ok ver) :
    fetchAmpRuntimeStyles_ env (.obj c) p v s
      = fetchAmpRuntimeStylesRest env c (some AMP_CACHE_HOST) (some ver)
          (pushVersion
            (pushLog s "AMP runtime styles cannot be fetched from relative ampUrlPrefix") none) := by
  simp only [fetchAmpRuntimeStyles_, callCurrentVersion, hp, ha, hv, Bool.not_false,
    Bool.and_self, if_true, Bool.false_eq_true, if_false, hcv]

end BranchEquations2

section BranchEquations3

variable {env : Env} {c : Config} {cs u url key : String} {p v : Option String} {s s₁ : St}
variable {e : JsErr} {r : Response} {val raw : CacheValue} {ver x : String} {l : Bool}
variable {rs vr : RuleSet} {rp : RuntimeParams} {m : MaxAgeStamp}

theorem ld_err (hcv : c.currentVersionO (some ⟨p, l⟩) = .error e) :
    fetchLatestRuntimeData_ key c p l s = (.error e, pushVersion s (some ⟨p, l⟩)) := by
  simp only [fetchLatestRuntimeData_, callCurrentVersion, hcv]

theorem ld_ok (hcv : c.currentVersionO (some ⟨p, l⟩) = .ok ver) :
    fetchLatestRuntimeData_ key c p l s
      = (.ok (ver, ⟨s.now, AMP_RUNTIME_MAX_AGE⟩),
         cacheSet (pushVersion s (some ⟨p, l⟩)) key (.record ver ⟨s.now, AMP_RUNTIME_MAX_AGE⟩)) := by
  simp only [fetchLatestRuntimeData_, callCurrentVersion, hcv, MaxAgeStamp.create]
  rfl

theorem ver_miss_err (h : jsTruthyCV (cacheGet s (versionKey p l)) = false)
    (hcv : c.currentVersionO (some ⟨p, l⟩) = .error e) :
    fetchAmpRuntimeVersion_ c p l s = (.error e, pushVersion s (some ⟨p, l⟩)) := by
  rcases hc : cacheGet s (versionKey p l) with _ | val
  · simp only [fetchAmpRuntimeVersion_, hc, ld_err hcv]
  · rcases val with x | ⟨ver₂, m⟩
    · rw [hc] at h
      simp only [jsTruthyCV, cvTruthy, Bool.not_eq_false'] at h
      simp only [fetchAmpRuntimeVersion_, hc, h, if_true, ld_err hcv]
    · rw [hc] at h
      simp only [jsTruthyCV, cvTruthy] at h
      exact Bool.noConfusion h

theorem ver_miss_ok (h : jsTruthyCV (cacheGet s (versionKey p l)) = false)
    (hcv : c.currentVersionO (some ⟨p, l⟩) = .ok ver) :
    fetchAmpRuntimeVersion_ c p l s
      = (.ok ver, cacheSet (pushVersion s (some ⟨p, l⟩)) (versionKey p l)
          (.record ver ⟨s.now, AMP_RUNTIME_MAX_AGE⟩)) := by
  rcases hc : cacheGet s (versionKey p l) with _ | val
  · simp only [fetchAmpRuntimeVersion_, hc, ld_ok hcv]
  · rcases val with x | ⟨ver₂, m⟩
    · rw [hc] at h
      simp only [jsTruthyCV, cvTruthy, Bool.not_eq_false'] at h
      simp only [fetchAmpRuntimeVersion_, hc, h, if_true, ld_ok hcv]
    · rw [hc] at h
      simp only [jsTruthyCV, cvTruthy] at h
      exact Bool.noConfusion h

theorem ver_fresh (h : cacheGet s (versionKey p l) = some (.record ver m))
    (he : m.isExpired s.now = false) :
    fetchAmpRuntimeVersion_ c p l s = (.ok ver, s) := by
  simp only [fetchAmpRuntimeVersion_, h, he, Bool.false_eq_true, if_false]

theorem ver_stale (h : cacheGet s (versionKey p l) = some (.record ver m))
    (he : m.isExpired s.now = true) :
    fetchAmpRuntimeVersion_ c p l s
      = (.ok ver, (fetchLatestRuntimeData_ (versionKey p l) c p l s).2) := by
  simp only [fetchAmpRuntimeVersion_, h, he, if_true]

end BranchEquations3

section BranchEquations4

variable {env : Env} {c : Config} {cs u url key : String} {p v : Option String} {s s₁ : St}
variable {e : JsErr} {r : Response} {val raw : CacheValue} {ver x : String} {l : Bool}
variable {rs vr : RuleSet} {rp : RuntimeParams} {m : MaxAgeStamp}

theorem rm_err (hr : env.rulesFetch none = .error e) :
    fetchValidatorRulesMiss env s = (.error e, pushRules s none) := by
  simp only [fetchValidatorRulesMiss, callRulesProvider, hr]

theorem rm_ok (hr : env.rulesFetch none = .ok rs) :
    fetchValidatorRulesMiss env s
      = (.ok rs, cacheSet (pushRules s none) KEY_VALIDATOR_RULES (.str rs.raw)) := by
  simp only [fetchValidatorRulesMiss, callRulesProvider, hr]

theorem rules_miss (h : jsTruthyCV (cacheGet s KEY_VALIDATOR_RULES) = false) :
    fetchValidatorRules_ env s = fetchValidatorRulesMiss env s := by
  rcases hc : cacheGet s KEY_VALIDATOR_RULES with _ | raw
  · simp only [fetchValidatorRules_, hc]
  · rw [hc] at h
    simp only [jsTruthyCV] at h
    simp only [fetchValidatorRules_, hc, h, Bool.false_eq_true, if_false]

theorem rules_hit (h : cacheGet s KEY_VALIDATOR_RULES = some raw) (ht : cvTruthy raw = true) :
    fetchValidatorRules_ env s = (env.rulesFetch (some raw), pushRules s (some raw)) := by
  simp only [fetchValidatorRules_, h, ht, if_true, callRulesProvider]

theorem vph_cfg (h : c.validatorRules = some vr) :
    validatorPhase env c rp s = ({rp with validatorRules := some vr}, s) := by
  simp only [validatorPhase, h]

theorem vph_ok (h : c.validatorRules = none) (hr : fetchValidatorRules_ env s = (.ok rs, s₁)) :
    validatorPhase env c rp s = ({rp with validatorRules := some rs}, s₁) := by
  simp only [validatorPhase, h, hr]

theorem vph_err (h : c.validatorRules = none) (hr : fetchValidatorRules_ env s = (.error e, s₁)) :
    validatorPhase env c rp s = (rp, pushLog s₁ msgValidator) := by
  simp only [validatorPhase, h, hr]

theorem verph_keep (h : jsTruthyStr rp.ampRuntimeVersion = true) :
    versionPhase c rp s = (rp, s) := by
  simp only [versionPhase, h, if_true]

theorem verph_ok (h : jsTruthyStr rp.ampRuntimeVersion = false)
    (hf : fetchAmpRuntimeVersion_ c rp.ampUrlPrefix (rp.lts.getD false) s = (.ok ver, s₁)) :
    versionPhase c rp s = ({rp with ampRuntimeVersion := some ver}, s₁) := by
  simp only [versionPhase, h, Bool.false_eq_true, if_false, hf]

theorem verph_err (h : jsTruthyStr rp.ampRuntimeVersion = false)
    (hf : fetchAmpRuntimeVersion_ c rp.ampUrlPrefix (rp.lts.getD false) s = (.error e, s₁)) :
    versionPhase c rp s = (rp, pushLog s₁ msgVersion) := by
  simp only [versionPhase, h, Bool.false_eq_true, if_false, hf]

theorem styph_keep (h : jsTruthyCV rp.ampRuntimeStyles = true) :
    stylesPhase env c rp s = (rp, s) := by
  simp only [stylesPhase, h, if_true]

theorem styph_ok (h : jsTruthyCV rp.ampRuntimeStyles = false)
    (hf : fetchAmpRuntimeStyles_ env (.obj c) rp.ampUrlPrefix rp.ampRuntimeVersion s
            = (.ok val, s₁)) :
    stylesPhase env c rp s = ({rp with ampRuntimeStyles := some val}, s₁) := by
  simp only [stylesPhase, h, Bool.false_eq_true, if_false, hf]

theorem styph_err (h : jsTruthyCV rp.ampRuntimeStyles = false)
    (hf : fetchAmpRuntimeStyles_ env (.obj c) rp.ampUrlPrefix rp.ampRuntimeVersion s
            = (.error e, s₁)) :
    stylesPhase env c rp s = (rp, pushLog s₁ msgStyles) := by
  simp only [stylesPhase, h, Bool.false_eq_true, if_false, hf]

theorem main_eq (env : Env) (c : Config) (s : St) :
    fetchRuntimeParameters env c s
      = (.ok (stylesPhase env c
            (versionPhase c (validatorPhase env c (initParams c s.customParams) s).1
              (validatorPhase env c (initParams c s.customParams) s).2).1
            (versionPhase c (validatorPhase env c (initParams c s.customParams) s).1
              (validatorPhase env c (initParams c s.customParams) s).2).2).1,
         (stylesPhase env c
            (versionPhase c (validatorPhase env c (initParams c s.customParams) s).1
              (validatorPhase env c (initParams c s.customParams) s).2).1
            (versionPhase c (validatorPhase env c (initParams c s.customParams) s).1
              (validatorPhase env c (initParams c s.customParams) s).2).2).2) := rfl

end BranchEquations4

/-- State evolution along any embedded computation: the caller-held parameter
object is never written, and log lines are only appended. -/
def Evolves (s t : St) : Prop :=
  t.customParams = s.customParams ∧ ∀ m, m ∈ s.log → m ∈ t.log

theorem evolves_rfl (s : St) : Evolves s s := ⟨rfl, fun _ h => h⟩

theorem evolves_trans {s t u : St} (h₁ : Evolves s t) (h₂ : Evolves t u) : Evolves s u :=
  ⟨h₂.1.trans h₁.1, fun m hm => h₂.2 m (h₁.2 m hm)⟩

theorem evolves_pushLog (s : St) (m : String) : Evolves s (pushLog s m) := by
  refine ⟨rfl, fun x hx => ?_⟩
  simp only [pushLog, List.mem_append]
  exact Or.inl hx

theorem evolves_pushFetch (s : St) (u : String) : Evolves s (pushFetch s u) :=
  ⟨rfl, fun _ h => h⟩

theorem evolves_pushVersion (s : St) (a : Option VersionArgs) : Evolves s (pushVersion s a) :=
  ⟨rfl, fun _ h => h⟩

theorem evolves_pushRules (s : St) (a : Option CacheValue) : Evolves s (pushRules s a) :=
  ⟨rfl, fun _ h => h⟩

theorem evolves_cacheSet (s : St) (k : String) (v : CacheValue) : Evolves s (cacheSet s k v) :=
  ⟨rfl, fun _ h => h⟩

theorem evolves_download (cv : ConfigV) (u : String) (s : St) :
    Evolves s (downloadAmpRuntimeStyles_ cv u s).2 := by
  by_cases h : jsTruthyCV (cacheGet s u) = true
  · rw [dl_hit cv h]
    exact evolves_rfl s
  · simp only [Bool.not_eq_true] at h
    rcases cv with c | cs
    · rcases hf : c.fetchO u with e | r
      · rw [dl_err h hf]
        exact evolves_pushFetch s u
      · cases ho : r.ok
        · rw [dl_notok h hf ho]
          exact evolves_pushFetch s u
        · rw [dl_ok h hf ho]
          exact evolves_trans (evolves_pushFetch s u) (evolves_cacheSet _ _ _)
    · rw [dl_str h]
      exact evolves_rfl s

theorem evolves_stylesStr (env : Env) (cs : String) (p v : Option String) (s : St) :
    Evolves s (fetchAmpRuntimeStylesStr env cs p v s).2 := by
  by_cases hc : (jsTruthyStr p && !env.isAbsoluteUrl (p.getD "")) = true
  · have hp : jsTruthyStr p = true := by
      rcases Bool.and_eq_true_iff.mp hc with ⟨h₁, _⟩
      exact h₁
    have ha : env.isAbsoluteUrl (p.getD "") = false := by
      rcases Bool.and_eq_true_iff.mp hc with ⟨_, h₂⟩
      simp only [Bool.not_eq_true'] at h₂
      exact h₂
    rw [sstr_invalid hp ha]
    exact evolves_rfl s
  · simp only [Bool.not_eq_true] at hc
    have hd := evolves_download (.str cs) (styleUrl p v) s
    rcases hdl : downloadAmpRuntimeStyles_ (.str cs) (styleUrl p v) s with ⟨res, s₁⟩
    rw [hdl] at hd
    rcases res with e | sty
    · rw [sstr_dlerr hc hdl]
      exact hd
    · rcases sty with _ | val
      · rw [sstr_dlnull hc hdl]
        exact hd
      · cases ht : cvTruthy val
        · rw [sstr_dlval_f hc hdl ht]
          exact hd
        · rw [sstr_dlval_t hc hdl ht]
          exact hd

theorem evolves_fallback (env : Env) (c : Config) (p v : Option String) (url : String) (s : St) :
    Evolves s (stylesFallback env c p v url s).2 := by
  by_cases h : (jsTruthyStr p || jsTruthyStr v) = true
  · rcases hcv : c.currentVersionO none with e | ver
    · rw [fb_retry_err h hcv]
      exact evolves_trans (evolves_pushLog _ _) (evolves_pushVersion _ _)
    · rw [fb_retry h hcv]
      exact evolves_trans (evolves_trans (evolves_pushLog _ _) (evolves_pushVersion _ _))
        (evolves_stylesStr _ _ _ _ _)
  · simp only [Bool.not_eq_true, Bool.or_eq_false_iff] at h
    rw [fb_noretry h.1 h.2]
    exact evolves_pushLog _ _

theorem evolves_rest (env : Env) (c : Config) (p v : Option String) (s : St) :
    Evolves s (fetchAmpRuntimeStylesRest env c p v s).2 := by
  have hd := evolves_download (.obj c) (styleUrl p v) s
  rcases hdl : downloadAmpRuntimeStyles_ (.obj c) (styleUrl p v) s with ⟨res, s₁⟩
  rw [hdl] at hd
  rcases res with e | sty
  · rw [rest_dlerr hdl]
    exact hd
  · rcases sty with _ | val
    · rw [rest_dlnull hdl]
      exact evolves_trans hd (evolves_fallback _ _ _ _ _ _)
    · cases ht : cvTruthy val
      · rw [rest_dlval_f hdl ht]
        exact evolves_trans hd (evolves_fallback _ _ _ _ _ _)
      · rw [rest_dlval_t hdl ht]
        exact hd

theorem evolves_styles (env : Env) (cv : ConfigV) (p v : Option String) (s : St) :
    Evolves s (fetchAmpRuntimeStyles_ env cv p v s).2 := by
  rcases cv with c | cs
  · by_cases hc : (jsTruthyStr p && !env.isAbsoluteUrl (p.getD "")) = true
    · have hp : jsTruthyStr p = true := (Bool.and_eq_true_iff.mp hc).1
      have ha : env.isAbsoluteUrl (p.getD "") = false := by
        have := (Bool.and_eq_true_iff.mp hc).2
        simp only [Bool.not_eq_true'] at this
        exact this
      cases hv : jsTruthyStr v
      · rcases hcv : c.currentVersionO none with e | ver
        · rw [sty_invalid_vf_err hp ha hv hcv]
          exact evolves_trans (evolves_pushLog _ _) (evolves_pushVersion _ _)
        · rw [sty_invalid_vf_ok hp ha hv hcv]
          exact evolves_trans (evolves_trans (evolves_pushLog _ _) (evolves_pushVersion _ _))
            (evolves_rest _ _ _ _ _)
      · rw [sty_invalid_vt hp ha hv]
        exact evolves_trans (evolves_pushLog _ _) (evolves_rest _ _ _ _ _)
    · simp only [Bool.not_eq_true] at hc
      rw [sty_valid hc]
      exact evolves_rest _ _ _ _ _
  · rw [sty_str_eq]
    exact evolves_stylesStr _ _ _ _ _

theorem evolves_latestData (key : String) (c : Config) (p : Option String) (l : Bool) (s : St) :
    Evolves s (fetchLatestRuntimeData_ key c p l s).2 := by
  rcases hcv : c.currentVersionO (some ⟨p, l⟩) with e | ver
  · rw [ld_err hcv]
    exact evolves_pushVersion _ _
  · rw [ld_ok hcv]
    exact evolves_trans (evolves_pushVersion _ _) (evolves_cacheSet _ _ _)

theorem evolves_version (c : Config) (p : Option String) (l : Bool) (s : St) :
    Evolves s (fetchAmpRuntimeVersion_ c p l s).2 := by
  rcases hc : cacheGet s (versionKey p l) with _ | val
  · have h : jsTruthyCV (cacheGet s (versionKey p l)) = false := by rw [hc]; rfl
    rcases hcv : c.currentVersionO (some ⟨p, l⟩) with e | ver
    · rw [ver_miss_err h hcv]
      exact evolves_pushVersion _ _
    · rw [ver_miss_ok h hcv]
      exact evolves_trans (evolves_pushVersion _ _) (evolves_cacheSet _ _ _)
  · rcases val with x | ⟨ver, m⟩
    · by_cases hx : x.isEmpty = true
      · have h : jsTruthyCV (cacheGet s (versionKey p l)) = false := by
          rw [hc]
          simp [jsTruthyCV, cvTruthy, hx]
        rcases hcv : c.currentVersionO (some ⟨p, l⟩) with e | ver
        · rw [ver_miss_err h hcv]
          exact evolves_pushVersion _ _
        · rw [ver_miss_ok h hcv]
          exact evolves_trans (evolves_pushVersion _ _) (evolves_cacheSet _ _ _)
      · simp only [Bool.not_eq_true] at hx
        have : fetchAmpRuntimeVersion_ c p l s = (.error (.typeError "MaxAge.fromJson"), s) := by
          simp only [fetchAmpRuntimeVersion_, hc, hx, Bool.false_eq_true, if_false]
        rw [this]
        exact evolves_rfl s
    · cases he : m.isExpired s.now
      · rw [ver_fresh hc he]
        exact evolves_rfl s
      · rw [ver_stale hc he]
        exact evolves_latestData _ _ _ _ _

theorem evolves_rules (env : Env) (s : St) :
    Evolves s (fetchValidatorRules_ env s).2 := by
  have hmiss : Evolves s (fetchValidatorRulesMiss env s).2 := by
    rcases hr : env.rulesFetch none with e | rs
    · rw [rm_err hr]
      exact evolves_pushRules _ _
    · rw [rm_ok hr]
      exact evolves_trans (evolves_pushRules _ _) (evolves_cacheSet _ _ _)
  rcases hc : cacheGet s KEY_VALIDATOR_RULES with _ | raw
  · rw [rules_miss (by rw [hc]; rfl)]
    exact hmiss
  · cases ht : cvTruthy raw
    · rw [rules_miss (by rw [hc]; simp [jsTruthyCV, ht])]
      exact hmiss
    · rw [rules_hit hc ht]
      exact evolves_pushRules _ _

theorem evolves_validatorPhase (env : Env) (c : Config) (rp : RuntimeParams) (s : St) :
    Evolves s (validatorPhase env c rp s).2 := by
  rcases hv : c.validatorRules with _ | vr
  · have hd := evolves_rules env s
    rcases hr : fetchValidatorRules_ env s with ⟨res, s₁⟩
    rw [hr] at hd
    rcases res with e | rs
    · rw [vph_err hv hr]
      exact evolves_trans hd (evolves_pushLog _ _)
    · rw [vph_ok hv hr]
      exact hd
  · rw [vph_cfg hv]
    exact evolves_rfl s

theorem evolves_versionPhase (c : Config) (rp : RuntimeParams) (s : St) :
    Evolves s (versionPhase c rp s).2 := by
  cases ht : jsTruthyStr rp.ampRuntimeVersion
  · have hd := evolves_version c rp.ampUrlPrefix (rp.lts.getD false) s
    rcases hf : fetchAmpRuntimeVersion_ c rp.ampUrlPrefix (rp.lts.getD false) s with ⟨res, s₁⟩
    rw [hf] at hd
    rcases res with e | ver
    · rw [verph_err ht hf]
      exact evolves_trans hd (evolves_pushLog _ _)
    · rw [verph_ok ht hf]
      exact hd
  · rw [verph_keep ht]
    exact evolves_rfl s

theorem evolves_stylesPhase (env : Env) (c : Config) (rp : RuntimeParams) (s : St) :
    Evolves s (stylesPhase env c rp s).2 := by
  cases ht : jsTruthyCV rp.ampRuntimeStyles
  · have hd := evolves_styles env (.obj c) rp.ampUrlPrefix rp.ampRuntimeVersion s
    rcases hf : fetchAmpRuntimeStyles_ env (.obj c) rp.ampUrlPrefix rp.ampRuntimeVersion s
      with ⟨res, s₁⟩
    rw [hf] at hd
    rcases res with e | val
    · rw [styph_err ht hf]
      exact evolves_trans hd (evolves_pushLog _ _)
    · rw [styph_ok ht hf]
      exact hd
  · rw [styph_keep ht]
    exact evolves_rfl s

theorem evolves_main (env : Env) (c : Config) (s : St) :
    Evolves s (fetchRuntimeParameters env c s).2 := by
  rw [main_eq]
  exact evolves_trans (evolves_validatorPhase env c (initParams c s.customParams) s)
    (evolves_trans (evolves_versionPhase _ _ _) (evolves_stylesPhase _ _ _ _))

theorem vph_fields (env : Env) (c : Config) (rp : RuntimeParams) (s : St) :
    (validatorPhase env c rp s).1.ampUrlPrefix = rp.ampUrlPrefix ∧
    (validatorPhase env c rp s).1.ampRuntimeVersion = rp.ampRuntimeVersion ∧
    (validatorPhase env c rp s).1.ampRuntimeStyles = rp.ampRuntimeStyles ∧
    (validatorPhase env c rp s).1.lts = rp.lts := by
  rcases hv : c.validatorRules with _ | vr
  · rcases hr : fetchValidatorRules_ env s with ⟨res, s₁⟩
    rcases res with e | rs
    · rw [vph_err hv hr]
      exact ⟨rfl, rfl, rfl, rfl⟩
    · rw [vph_ok hv hr]
      exact ⟨rfl, rfl, rfl, rfl⟩
  · rw [vph_cfg hv]
    exact ⟨rfl, rfl, rfl, rfl⟩

theorem verph_fields (c : Config) (rp : RuntimeParams) (s : St) :
    (versionPhase c rp s).1.validatorRules = rp.validatorRules ∧
    (versionPhase c rp s).1.ampUrlPrefix = rp.ampUrlPrefix ∧
    (versionPhase c rp s).1.ampRuntimeStyles = rp.ampRuntimeStyles ∧
    (versionPhase c rp s).1.lts = rp.lts := by
  cases ht : jsTruthyStr rp.ampRuntimeVersion
  · rcases hf : fetchAmpRuntimeVersion_ c rp.ampUrlPrefix (rp.lts.getD false) s with ⟨res, s₁⟩
    rcases res with e | ver
    · rw [verph_err ht hf]
      exact ⟨rfl, rfl, rfl, rfl⟩
    · rw [verph_ok ht hf]
      exact ⟨rfl, rfl, rfl, rfl⟩
  · rw [verph_keep ht]
    exact ⟨rfl, rfl, rfl, rfl⟩

theorem styph_fields (env : Env) (c : Config) (rp : RuntimeParams) (s : St) :
    (stylesPhase env c rp s).1.validatorRules = rp.validatorRules ∧
    (stylesPhase env c rp s).1.ampRuntimeVersion = rp.ampRuntimeVersion ∧
    (stylesPhase env c rp s).1.ampUrlPrefix = rp.ampUrlPrefix := by
  cases ht : jsTruthyCV rp.ampRuntimeStyles
  · rcases hf : fetchAmpRuntimeStyles_ env (.obj c) rp.ampUrlPrefix rp.ampRuntimeVersion s
      with ⟨res, s₁⟩
    rcases res with e | val
    · rw [styph_err ht hf]
      exact ⟨rfl, rfl, rfl⟩
    · rw [styph_ok ht hf]
      exact ⟨rfl, rfl, rfl⟩
  · rw [styph_keep ht]
    exact ⟨rfl, rfl, rfl⟩

/-- C1: for every config and customParameters, `fetchRuntimeParameters` returns
a RuntimeParameters object and never rejects: a failure in any one of the three
sub-resolutions (validator rules, runtime version, runtime styles) is caught,
logged via the config's `log.error`, leaves that field at the caller's value
(unset when the caller did not set it), and does not prevent the other
sub-resolutions from being attempted (the run is exactly the remaining phases
applied to the post-failure state, and the logged message survives to the final
state). -/
theorem c1_resolve_total_and_soft (env : Env) (c : Config) (s : St) :
    (∃ r s₃, fetchRuntimeParameters env c s = (.ok r, s₃)) ∧
    (∀ e s₁, c.validatorRules = none → fetchValidatorRules_ env s = (.error e, s₁) →
      ∃ r s₃, fetchRuntimeParameters env c s = (.ok r, s₃) ∧
        r.validatorRules = s.customParams.validatorRules ∧ msgValidator ∈ s₃.log) ∧
    (∀ rp₁ t₁ e s₁, validatorPhase env c (initParams c s.customParams) s = (rp₁, t₁) →
      jsTruthyStr rp₁.ampRuntimeVersion = false →
      fetchAmpRuntimeVersion_ c rp₁.ampUrlPrefix (rp₁.lts.getD false) t₁ = (.error e, s₁) →
      ∃ r s₃, fetchRuntimeParameters env c s = (.ok r, s₃) ∧
        r.ampRuntimeVersion = s.customParams.ampRuntimeVersion ∧ msgVersion ∈ s₃.log) ∧
    (∀ rp₂ t₂ e s₁,
      versionPhase c (validatorPhase env c (initParams c s.customParams) s).1
          (validatorPhase env c (initParams c s.customParams) s).2 = (rp₂, t₂) →
      jsTruthyCV rp₂.ampRuntimeStyles = false →
      fetchAmpRuntimeStyles_ env (.obj c) rp₂.ampUrlPrefix rp₂.ampRuntimeVersion t₂
        = (.error e, s₁) →
      ∃ r, fetchRuntimeParameters env c s = (.ok r, pushLog s₁ msgStyles) ∧
        r.ampRuntimeStyles = s.customParams.ampRuntimeStyles ∧
        msgStyles ∈ (pushLog s₁ msgStyles).log) := by
  refine ⟨⟨_, _, main_eq env c s⟩, ?_, ?_, ?_⟩
  · intro e s₁ hcv hr
    have h1 : validatorPhase env c (initParams c s.customParams) s
        = (initParams c s.customParams, pushLog s₁ msgValidator) := vph_err hcv hr
    have hrun : fetchRuntimeParameters env c s
        = (.ok (stylesPhase env c
              (versionPhase c (initParams c s.customParams) (pushLog s₁ msgValidator)).1
              (versionPhase c (initParams c s.customParams) (pushLog s₁ msgValidator)).2).1,
           (stylesPhase env c
              (versionPhase c (initParams c s.customParams) (pushLog s₁ msgValidator)).1
              (versionPhase c (initParams c s.customParams) (pushLog s₁ msgValidator)).2).2) := by
      rw [main_eq, h1]
    refine ⟨_, _, hrun, ?_, ?_⟩
    · rw [(styph_fields env c _ _).1, (verph_fields c _ _).1]
      rfl
    · have hm : msgValidator ∈ (pushLog s₁ msgValidator).log := by
        simp [pushLog]
      exact (evolves_stylesPhase env c _ _).2 _ ((evolves_versionPhase c _ _).2 _ hm)
  · intro rp₁ t₁ e s₁ hph htr hvf
    have h2 : versionPhase c rp₁ t₁ = (rp₁, pushLog s₁ msgVersion) := verph_err htr hvf
    have hrun : fetchRuntimeParameters env c s
        = (.ok (stylesPhase env c rp₁ (pushLog s₁ msgVersion)).1,
           (stylesPhase env c rp₁ (pushLog s₁ msgVersion)).2) := by
      rw [main_eq, hph, h2]
    refine ⟨_, _, hrun, ?_, ?_⟩
    · have : rp₁.ampRuntimeVersion = s.customParams.ampRuntimeVersion := by
        have hv := (vph_fields env c (initParams c s.customParams) s).2.1
        rw [hph] at hv
        exact hv
      rw [(styph_fields env c _ _).2.1, this]
    · have hm : msgVersion ∈ (pushLog s₁ msgVersion).log := by
        simp [pushLog]
      exact (evolves_stylesPhase env c _ _).2 _ hm
  · intro rp₂ t₂ e s₁ hph htr hsf
    have h3 : stylesPhase env c rp₂ t₂ = (rp₂, pushLog s₁ msgStyles) := styph_err htr hsf
    have hrun : fetchRuntimeParameters env c s = (.ok rp₂, pushLog s₁ msgStyles) := by
      rw [main_eq, hph, h3]
    refine ⟨_, hrun, ?_, ?_⟩
    · have h₁ := (vph_fields env c (initParams c s.customParams) s).2.2.1
      have h₂ := (verph_fields c (validatorPhase env c (initParams c s.customParams) s).1
        (validatorPhase env c (initParams c s.customParams) s).2).2.2.1
      rw [hph] at h₂
      simp only at h₂
      rw [h₂, h₁]
      rfl
    · simp [pushLog]

/-- C10: `fetchRuntimeParameters` never mutates its `customRuntimeParameters`
argument: the result is built on a fresh copy, so the caller-held parameter
object (the state's `customParams` cell) is unchanged after the call, for every
environment, config and initial state. -/
theorem c10_custom_params_never_mutated (env : Env) (c : Config) (s : St) :
    (fetchRuntimeParameters env c s).2.customParams = s.customParams :=
  (evolves_main env c s).1

/-- Concrete world for witnesses: every external capability fails. -/
def envW : Env :=
  { isAbsoluteUrl := fun _ => false, rulesFetch := fun _ => .error (.jsError "boom") }

def cW : Config :=
  { fetchO := fun _ => .error (.jsError "netdown"),
    currentVersionO := fun _ => .error (.jsError "nover") }

def stW : St :=
  { cache := fun _ => none, broken := fun _ => false, now := 0, log := [],
    versionLog := [], fetchLog := [], rulesLog := [], customParams := {} }

theorem c1_witness :
    (∃ r s₃, fetchRuntimeParameters envW cW stW = (Except.ok r, s₃)) ∧
    (∃ r s₃, fetchRuntimeParameters envW cW stW = (Except.ok r, s₃) ∧
      r.validatorRules = stW.customParams.validatorRules ∧ msgValidator ∈ s₃.log) ∧
    (∃ r s₃, fetchRuntimeParameters envW cW stW = (Except.ok r, s₃) ∧
      r.ampRuntimeVersion = stW.customParams.ampRuntimeVersion ∧ msgVersion ∈ s₃.log) ∧
    (∃ s₁ r, fetchRuntimeParameters envW cW stW = (Except.ok r, pushLog s₁ msgStyles) ∧
      r.ampRuntimeStyles = stW.customParams.ampRuntimeStyles ∧
      msgStyles ∈ (pushLog s₁ msgStyles).log) := by
  obtain ⟨h1, h2, h3, h4⟩ := c1_resolve_total_and_soft envW cW stW
  refine ⟨h1, h2 (.jsError "boom") (pushRules stW none) rfl rfl, ?_, ?_⟩
  · exact h3 _ _ (.jsError "nover") _ rfl rfl rfl
  · obtain ⟨r, hr⟩ := h4 _ _ (.jsError "netdown") _ rfl rfl rfl
    exact ⟨_, r, hr⟩


theorem cacheGet_set_same (s : St) (k : String) (v : CacheValue) :
    cacheGet (cacheSet s k v) k = some v := by
  simp [cacheGet, cacheSet]

theorem cacheGet_set_other (s : St) (k q : String) (v : CacheValue) (h : q ≠ k) :
    cacheGet (cacheSet s k v) q = cacheGet s q := by
  simp [cacheGet, cacheSet, h]

/-- Concrete world for the styles-retry bug: the style download from the
explicit prefix fails, while any download from the canonical CDN host would
succeed and the version source answers. -/
def envC2 : Env :=
  { isAbsoluteUrl := fun u => u = "https://example.com" || u = AMP_CACHE_HOST,
    rulesFetch := fun _ => .error (.jsError "unused") }

def cfgC2 : Config :=
  { fetchO := fun u =>
      if u = "https://example.com/rtv/1/v0.css" then .ok ⟨false, ""⟩ else .ok ⟨true, "canonical-css"⟩,
    currentVersionO := fun _ => .ok "012345" }

def stC2 : St :=
  { cache := fun _ => none, broken := fun _ => false, now := 0, log := [],
    versionLog := [], fetchLog := [], rulesLog := [], customParams := {} }

/-- C2: with an explicitly provided `ampUrlPrefix` whose style download yields
no content, the fallback does not return the retry's result: the source passes
`AMP_CACHE_HOST` in the `config` position of the retry call, so the retry
throws a `TypeError` on `config.log.warn`; no fetch from the canonical host
ever happens (the fetch trace holds only the prefixed URL), even though a
canonical download would have succeeded in this world. -/
theorem c2_retry_passes_host_as_config :
    (fetchAmpRuntimeStyles_ envC2 (.obj cfgC2) (some "https://example.com") (some "1") stC2).1
      = .error (.typeError "config.log") ∧
    (fetchAmpRuntimeStyles_ envC2 (.obj cfgC2) (some "https://example.com") (some "1") stC2).2.fetchLog
      = ["https://example.com/rtv/1/v0.css"] ∧
    (fetchAmpRuntimeStyles_ envC2 (.obj cfgC2) (some "https://example.com") (some "1") stC2).2.log
      = ["Could not download https://example.com/rtv/1/v0.css"] ∧
    cfgC2.fetchO (styleUrl (some AMP_CACHE_HOST) (some "012345")) = .ok ⟨true, "canonical-css"⟩ := by
  refine ⟨?_, ?_, ?_, ?_⟩ <;> rfl

/-- World for the empty-body download: every fetch succeeds with an empty
body; the version source answers (feeding the buggy retry). -/
def envC3 : Env :=
  { isAbsoluteUrl := fun u => u = AMP_CACHE_HOST,
    rulesFetch := fun _ => .error (.jsError "unused") }

def cfgC3 : Config :=
  { fetchO := fun _ => .ok ⟨true, ""⟩, currentVersionO := fun _ => .ok "99" }

/-- C3 counterexample: with an empty cache, no prefix and an explicit version,
an ok download whose body is the empty string IS cached under the style URL,
but `fetchAmpRuntimeStyles_` does not return it as the empty-string result:
the falsy body sends it into the fallback (the download-error line is logged
and the buggy retry throws), contradicting the claim's "returned ... without
entering the fallback step". -/
theorem c3_counterexample :
    (fetchAmpRuntimeStyles_ envC3 (.obj cfgC3) none (some "v1") stC2).1
      = .error (.typeError "config.log") ∧
    cacheGet (fetchAmpRuntimeStyles_ envC3 (.obj cfgC3) none (some "v1") stC2).2
        "https://cdn.ampproject.org/rtv/v1/v0.css" = some (.str "") ∧
    (fetchAmpRuntimeStyles_ envC3 (.obj cfgC3) none (some "v1") stC2).2.log
      = ["Could not download https://cdn.ampproject.org/rtv/v1/v0.css"] := by
  refine ⟨?_, ?_, ?_⟩ <;> rfl

/-- C3 amended: `downloadAmpRuntimeStyles_` signals no content (`null`)
exactly when the fetch response is non-ok, and an ok download with empty body
is cached under the URL; but `fetchAmpRuntimeStyles_` tests falsiness rather
than null, so the cached empty-string result is treated like no content and
enters the fallback step. -/
theorem c3_empty_body_enters_fallback (env : Env) (c : Config) (p v : Option String)
    (s : St) (resp : Response)
    (hmiss : jsTruthyCV (cacheGet s (styleUrl p v)) = false)
    (hf : c.fetchO (styleUrl p v) = .ok resp) :
    (((downloadAmpRuntimeStyles_ (.obj c) (styleUrl p v) s).1 = .ok none) ↔ resp.ok = false) ∧
    (resp.ok = true →
      downloadAmpRuntimeStyles_ (.obj c) (styleUrl p v) s
        = (.ok (some (.str resp.text)),
           cacheSet (pushFetch s (styleUrl p v)) (styleUrl p v) (.str resp.text))) ∧
    (resp.ok = true → resp.text = "" →
      fetchAmpRuntimeStylesRest env c p v s
        = stylesFallback env c p v (styleUrl p v)
            (cacheSet (pushFetch s (styleUrl p v)) (styleUrl p v) (.str ""))) := by
  refine ⟨?_, ?_, ?_⟩
  · cases ho : resp.ok
    · rw [dl_notok hmiss hf ho]
      simp
    · rw [dl_ok hmiss hf ho]
      simp
  · intro ho
    exact dl_ok hmiss hf ho
  · intro ho ht
    have hd : downloadAmpRuntimeStyles_ (.obj c) (styleUrl p v) s
        = (.ok (some (.str "")),
           cacheSet (pushFetch s (styleUrl p v)) (styleUrl p v) (.str "")) := by
      rw [dl_ok hmiss hf ho, ht]
    exact rest_dlval_f hd rfl

theorem c3_amended_witness :
    ((((downloadAmpRuntimeStyles_ (.obj cfgC3)
          (styleUrl none (some "v1")) stC2).1 = .ok none) ↔ (true : Bool) = false) ∧
     ((true : Bool) = true →
       downloadAmpRuntimeStyles_ (.obj cfgC3) (styleUrl none (some "v1")) stC2
         = (.ok (some (.str "")),
            cacheSet (pushFetch stC2 (styleUrl none (some "v1")))
              (styleUrl none (some "v1")) (.str ""))) ∧
     ((true : Bool) = true → ("" : String) = "" →
       fetchAmpRuntimeStylesRest envC3 cfgC3 none (some "v1") stC2
         = stylesFallback envC3 cfgC3 none (some "v1") (styleUrl none (some "v1"))
             (cacheSet (pushFetch stC2 (styleUrl none (some "v1")))
               (styleUrl none (some "v1")) (.str "")))) :=
  c3_empty_body_enters_fallback envC3 cfgC3 none (some "v1") stC2 ⟨true, ""⟩ rfl rfl

/-- C4: on a stale cache hit the previously cached version is returned (for
every outcome of the version source, including failure), exactly one
background fetch-and-store is triggered, a successful refresh overwrites the
record, and a failed refresh leaves the record and the caller's result
untouched. -/
theorem c4_stale_hit_background_refresh (c : Config) (p : Option String) (l : Bool)
    (s : St) (ver v₂ : String) (m : MaxAgeStamp)
    (hc : cacheGet s (versionKey p l) = some (.record ver m))
    (he : m.isExpired s.now = true) :
    (fetchAmpRuntimeVersion_ c p l s).1 = .ok ver ∧
    (fetchAmpRuntimeVersion_ c p l s).2.versionLog = s.versionLog ++ [some ⟨p, l⟩] ∧
    (c.currentVersionO (some ⟨p, l⟩) = .ok v₂ →
      cacheGet (fetchAmpRuntimeVersion_ c p l s).2 (versionKey p l)
        = some (.record v₂ ⟨s.now, AMP_RUNTIME_MAX_AGE⟩)) ∧
    (∀ e, c.currentVersionO (some ⟨p, l⟩) = .error e →
      (fetchAmpRuntimeVersion_ c p l s).2 = pushVersion s (some ⟨p, l⟩)) := by
  rw [ver_stale hc he]
  refine ⟨rfl, ?_, ?_, ?_⟩
  · rcases hcv : c.currentVersionO (some ⟨p, l⟩) with e | x
    · rw [ld_err hcv]
      rfl
    · rw [ld_ok hcv]
      simp [cacheSet, pushVersion]
  · intro hcv
    rw [ld_ok hcv]
    exact cacheGet_set_same _ _ _
  · intro e hcv
    rw [ld_err hcv]

def cfgC4 : Config :=
  { fetchO := fun _ => .ok ⟨true, "css"⟩, currentVersionO := fun _ => .ok "new" }

def cfgC4b : Config :=
  { fetchO := fun _ => .ok ⟨true, "css"⟩, currentVersionO := fun _ => .error (.jsError "net") }

def stC4 : St :=
  { cache := fun k => if k = "undefined-false" then some (.record "old" ⟨0, 600⟩) else none,
    broken := fun _ => false, now := 1000, log := [], versionLog := [], fetchLog := [],
    rulesLog := [], customParams := {} }

theorem c4_witness :
    ((fetchAmpRuntimeVersion_ cfgC4 none false stC4).1 = .ok "old" ∧
     (fetchAmpRuntimeVersion_ cfgC4 none false stC4).2.versionLog
       = [] ++ [some ⟨none, false⟩] ∧
     cacheGet (fetchAmpRuntimeVersion_ cfgC4 none false stC4).2 (versionKey none false)
       = some (.record "new" ⟨1000, AMP_RUNTIME_MAX_AGE⟩)) ∧
    ((fetchAmpRuntimeVersion_ cfgC4b none false stC4).1 = .ok "old" ∧
     (fetchAmpRuntimeVersion_ cfgC4b none false stC4).2
       = pushVersion stC4 (some ⟨none, false⟩)) := by
  have h₁ := c4_stale_hit_background_refresh cfgC4 none false stC4 "old" "new" ⟨0, 600⟩ rfl rfl
  have h₂ := c4_stale_hit_background_refresh cfgC4b none false stC4 "old" "new" ⟨0, 600⟩ rfl rfl
  exact ⟨⟨h₁.1, h₁.2.1, h₁.2.2.1 rfl⟩, ⟨h₂.1, h₂.2.2.2 (.jsError "net") rfl⟩⟩

/-- C5: on a cache miss for the key `ampUrlPrefix + '-' + lts`, exactly one
version-source call is made, the fetched version is returned, and the record
stored under that key is stamped at the current time with the 600-second
max-age, so it expires exactly when `now + 600 < t`. -/
theorem c5_miss_fetch_and_store (c : Config) (p : Option String) (l : Bool) (s : St)
    (ver : String)
    (hmiss : jsTruthyCV (cacheGet s (versionKey p l)) = false)
    (hcv : c.currentVersionO (some ⟨p, l⟩) = .ok ver) :
    (fetchAmpRuntimeVersion_ c p l s).1 = .ok ver ∧
    (fetchAmpRuntimeVersion_ c p l s).2.versionLog = s.versionLog ++ [some ⟨p, l⟩] ∧
    cacheGet (fetchAmpRuntimeVersion_ c p l s).2 (versionKey p l)
      = some (.record ver ⟨s.now, AMP_RUNTIME_MAX_AGE⟩) ∧
    versionKey p l = jsStrOpt p ++ "-" ++ jsStrBool l ∧
    (∀ t, (MaxAgeStamp.mk s.now AMP_RUNTIME_MAX_AGE).isExpired t = true ↔ s.now + 600 < t) := by
  rw [ver_miss_ok hmiss hcv]
  refine ⟨rfl, ?_, cacheGet_set_same _ _ _, rfl, ?_⟩
  · simp [cacheSet, pushVersion]
  · intro t
    simp [MaxAgeStamp.isExpired, AMP_RUNTIME_MAX_AGE]

theorem c5_witness :
    ((fetchAmpRuntimeVersion_ cfgC4 (some "") true stC2).1 = .ok "new" ∧
     (fetchAmpRuntimeVersion_ cfgC4 (some "") true stC2).2.versionLog
       = [] ++ [some ⟨some "", true⟩] ∧
     cacheGet (fetchAmpRuntimeVersion_ cfgC4 (some "") true stC2).2 (versionKey (some "") true)
       = some (.record "new" ⟨0, AMP_RUNTIME_MAX_AGE⟩) ∧
     versionKey (some "") true = jsStrOpt (some "") ++ "-" ++ jsStrBool true ∧
     (∀ t, (MaxAgeStamp.mk 0 AMP_RUNTIME_MAX_AGE).isExpired t = true ↔ 0 + 600 < t)) :=
  c5_miss_fetch_and_store cfgC4 (some "") true stC2 "new" rfl rfl

def rsC6 : RuleSet := ⟨"rawrules", "parsed"⟩

def cfgC6 : Config :=
  { validatorRules := some rsC6, ampRuntimeVersion := some "cfgver",
    fetchO := fun _ => .ok ⟨true, "css"⟩, currentVersionO := fun _ => .ok "fetched" }

/-- C6 counterexample: custom parameters leave `ampRuntimeVersion` unset and
the config provides one (`"cfgver"`), yet `fetchRuntimeParameters` calls the
version resolver (one version-source call is traced) and returns the fetched
version, not the config's — `config.ampRuntimeVersion` is never consulted. -/
theorem c6_counterexample :
    (fetchRuntimeParameters envC3 cfgC6 stC2).1
      = .ok { verbose := some false, lts := some false, rtv := some false,
              validatorRules := some rsC6, ampUrlPrefix := none,
              ampRuntimeVersion := some "fetched", ampRuntimeStyles := some (.str "css") } ∧
    cfgC6.ampRuntimeVersion = some "cfgver" ∧
    stC2.customParams.ampRuntimeVersion = none ∧
    (fetchRuntimeParameters envC3 cfgC6 stC2).2.versionLog = [some ⟨none, false⟩] := by
  refine ⟨?_, ?_, ?_, ?_⟩ <;> rfl

/-- C6 amended: the precedence for `ampRuntimeVersion` is explicit (custom) >
fetched; the config's `ampRuntimeVersion` is never consulted (the version
phase is unchanged under any value of that field), a truthy custom value is
kept without fetching, and when the custom value is falsy the fetched version
is assigned. -/
theorem c6_config_version_not_consulted (c : Config) (rp : RuntimeParams) (s s₁ : St)
    (x : Option String) (ver : String) :
    versionPhase {c with ampRuntimeVersion := x} rp s = versionPhase c rp s ∧
    (jsTruthyStr rp.ampRuntimeVersion = true → versionPhase c rp s = (rp, s)) ∧
    (jsTruthyStr rp.ampRuntimeVersion = false →
      fetchAmpRuntimeVersion_ c rp.ampUrlPrefix (rp.lts.getD false) s = (.ok ver, s₁) →
      versionPhase c rp s = ({rp with ampRuntimeVersion := some ver}, s₁)) := by
  refine ⟨rfl, fun h => verph_keep h, fun h hf => verph_ok h hf⟩

theorem c6_amended_witness :
    (versionPhase {cfgC6 with ampRuntimeVersion := none} {} stC2
        = versionPhase cfgC6 {} stC2) ∧
    (versionPhase cfgC6 {ampRuntimeVersion := some "v7"} stC2
        = ({ampRuntimeVersion := some "v7"}, stC2)) := by
  have h₁ := c6_config_version_not_consulted cfgC6 {} stC2
    (fetchAmpRuntimeVersion_ cfgC6 none false stC2).2 none "fetched"
  have h₂ := c6_config_version_not_consulted cfgC6 {ampRuntimeVersion := some "v7"} stC2
    stC2 none "unused"
  exact ⟨h₁.1, h₂.2.1 rfl⟩

/-- C7 (FileSystemCache modelled from the spec): an unreadable cache entry is
indistinguishable from an absent one — `get` yields `undefined`, never throws —
so each resolver proceeds down its miss path: the style download invokes the
fetch capability and caches the body, the version resolver performs the
fetch-and-store, and the rules resolver invokes the provider with no
arguments and stores the raw rules. -/
theorem c7_cache_failure_is_miss (env : Env) (c : Config) (p : Option String) (l : Bool)
    (u : String) (s : St) (resp : Response) (ver : String) (rs : RuleSet) :
    (∀ k, s.broken k = true → cacheGet s k = none) ∧
    (s.broken u = true → c.fetchO u = .ok resp → resp.ok = true →
      downloadAmpRuntimeStyles_ (.obj c) u s
        = (.ok (some (.str resp.text)), cacheSet (pushFetch s u) u (.str resp.text))) ∧
    (s.broken (versionKey p l) = true → c.currentVersionO (some ⟨p, l⟩) = .ok ver →
      fetchAmpRuntimeVersion_ c p l s
        = (.ok ver, cacheSet (pushVersion s (some ⟨p, l⟩)) (versionKey p l)
            (.record ver ⟨s.now, AMP_RUNTIME_MAX_AGE⟩))) ∧
    (s.broken KEY_VALIDATOR_RULES = true → env.rulesFetch none = .ok rs →
      fetchValidatorRules_ env s
        = (.ok rs, cacheSet (pushRules s none) KEY_VALIDATOR_RULES (.str rs.raw))) := by
  refine ⟨?_, ?_, ?_, ?_⟩
  · intro k hk
    simp [cacheGet, hk]
  · intro hb hf ho
    have hm : jsTruthyCV (cacheGet s u) = false := by simp [cacheGet, hb, jsTruthyCV]
    exact dl_ok hm hf ho
  · intro hb hcv
    have hm : jsTruthyCV (cacheGet s (versionKey p l)) = false := by
      simp [cacheGet, hb, jsTruthyCV]
    exact ver_miss_ok hm hcv
  · intro hb hr
    have hm : jsTruthyCV (cacheGet s KEY_VALIDATOR_RULES) = false := by
      simp [cacheGet, hb, jsTruthyCV]
    rw [rules_miss hm, rm_ok hr]

def envC7 : Env :=
  { isAbsoluteUrl := fun _ => false,
    rulesFetch := fun a => match a with
      | none => .ok ⟨"rawbytes", "fullrules"⟩
      | some _ => .error (.jsError "unexpected-arg") }

def cfgC7 : Config :=
  { fetchO := fun _ => .ok ⟨true, "body"⟩, currentVersionO := fun _ => .ok "v9" }

def stC7 : St :=
  { cache := fun _ => some (.str "unreadable-bytes"), broken := fun _ => true, now := 5,
    log := [], versionLog := [], fetchLog := [], rulesLog := [], customParams := {} }

theorem c7_witness :
    cacheGet stC7 "k" = none ∧
    downloadAmpRuntimeStyles_ (.obj cfgC7) "https://h/x.css" stC7
      = (.ok (some (.str "body")),
         cacheSet (pushFetch stC7 "https://h/x.css") "https://h/x.css" (.str "body")) ∧
    fetchAmpRuntimeVersion_ cfgC7 none false stC7
      = (.ok "v9", cacheSet (pushVersion stC7 (some ⟨none, false⟩)) (versionKey none false)
          (.record "v9" ⟨5, AMP_RUNTIME_MAX_AGE⟩)) ∧
    fetchValidatorRules_ envC7 stC7
      = (.ok ⟨"rawbytes", "fullrules"⟩,
         cacheSet (pushRules stC7 none) KEY_VALIDATOR_RULES (.str "rawbytes")) := by
  have h := c7_cache_failure_is_miss envC7 cfgC7 none false "https://h/x.css" stC7
    ⟨true, "body"⟩ "v9" ⟨"rawbytes", "fullrules"⟩
  exact ⟨h.1 "k" rfl, h.2.1 rfl rfl rfl, h.2.2.1 rfl rfl, h.2.2.2 rfl rfl⟩

theorem truthy_of_ne_empty {x : String} (h : x ≠ "") : jsTruthyStr (some x) = true := by
  have hE : x.isEmpty = false := by
    cases hE : x.isEmpty
    · rfl
    · exact absurd ((String.isEmpty_iff x).mp hE) h
  simp [jsTruthyStr, hE]

theorem fallback_host_none (env : Env) (c : Config) (v : Option String) (url : String)
    (s : St) (hv : jsTruthyStr v = true) :
    stylesFallback env c (some AMP_CACHE_HOST) v url s = stylesFallback env c none v url s := by
  unfold stylesFallback
  have h₁ : (jsTruthyStr (some AMP_CACHE_HOST) || jsTruthyStr v) = true := by
    rw [truthy_of_ne_empty (by decide), Bool.true_or]
  have h₂ : (jsTruthyStr (none : Option String) || jsTruthyStr v) = true := by
    rw [show jsTruthyStr (none : Option String) = false from rfl, Bool.false_or]
    exact hv
  rw [h₁, h₂]

theorem rest_host_none (env : Env) (c : Config) (v : Option String) (s : St)
    (hv : jsTruthyStr v = true) :
    fetchAmpRuntimeStylesRest env c (some AMP_CACHE_HOST) v s
      = fetchAmpRuntimeStylesRest env c none v s := by
  have hurl : styleUrl (some AMP_CACHE_HOST) v = styleUrl none v := rfl
  rcases hdl : downloadAmpRuntimeStyles_ (.obj c) (styleUrl none v) s with ⟨res, s₁⟩
  rcases res with e | sty
  · rw [rest_dlerr (p := some AMP_CACHE_HOST) hdl, rest_dlerr hdl]
  · rcases sty with _ | val
    · rw [rest_dlnull (p := some AMP_CACHE_HOST) hdl, rest_dlnull hdl, hurl,
        fallback_host_none env c v (styleUrl none v) s₁ hv]
    · cases ht : cvTruthy val
      · rw [rest_dlval_f (p := some AMP_CACHE_HOST) hdl ht, rest_dlval_f hdl ht, hurl,
          fallback_host_none env c v (styleUrl none v) s₁ hv]
      · rw [rest_dlval_t (p := some AMP_CACHE_HOST) hdl ht, rest_dlval_t hdl ht]

/-- C8: with a truthy `ampUrlPrefix` that does not parse as an absolute URL,
`fetchAmpRuntimeStyles_` logs the warning, substitutes the canonical CDN host
for the prefix, resolves `ampRuntimeVersion` through the no-argument
current-version path when it was not already truthy, and then behaves exactly
as the run with the prefix unset (on the warn-extended state, with the
resolved version). -/
theorem c8_invalid_prefix_fallback (env : Env) (c : Config) (pfx vv : String)
    (v : Option String) (s : St)
    (hp : pfx ≠ "") (hinv : env.isAbsoluteUrl pfx = false) :
    (jsTruthyStr v = true →
      fetchAmpRuntimeStyles_ env (.obj c) (some pfx) v s
        = fetchAmpRuntimeStyles_ env (.obj c) none v
            (pushLog s "AMP runtime styles cannot be fetched from relative ampUrlPrefix")) ∧
    (jsTruthyStr v = false → c.currentVersionO none = .ok vv → vv ≠ "" →
      fetchAmpRuntimeStyles_ env (.obj c) (some pfx) v s
        = fetchAmpRuntimeStyles_ env (.obj c) none (some vv)
            (pushVersion
              (pushLog s "AMP runtime styles cannot be fetched from relative ampUrlPrefix")
              none)) := by
  have hp' : jsTruthyStr (some pfx) = true := truthy_of_ne_empty hp
  have hnone : (jsTruthyStr (none : Option String)
      && !env.isAbsoluteUrl ((none : Option String).getD "")) = false := rfl
  refine ⟨?_, ?_⟩
  · intro hv
    rw [sty_invalid_vt hp' hinv hv, sty_valid hnone, rest_host_none env c v _ hv]
  · intro hv hcv hvv
    have hvv' : jsTruthyStr (some vv) = true := truthy_of_ne_empty hvv
    rw [sty_invalid_vf_ok hp' hinv hv hcv, sty_valid hnone, rest_host_none env c (some vv) _ hvv']

def cfgC8 : Config :=
  { fetchO := fun _ => .ok ⟨true, "css8"⟩, currentVersionO := fun _ => .ok "007" }

theorem c8_witness :
    (fetchAmpRuntimeStyles_ envC3 (.obj cfgC8) (some "not-a-url") (some "v3") stC2
       = fetchAmpRuntimeStyles_ envC3 (.obj cfgC8) none (some "v3")
           (pushLog stC2 "AMP runtime styles cannot be fetched from relative ampUrlPrefix")) ∧
    (fetchAmpRuntimeStyles_ envC3 (.obj cfgC8) (some "not-a-url") none stC2
       = fetchAmpRuntimeStyles_ envC3 (.obj cfgC8) none (some "007")
           (pushVersion
             (pushLog stC2 "AMP runtime styles cannot be fetched from relative ampUrlPrefix")
             none)) := by
  have h := c8_invalid_prefix_fallback envC3 cfgC8 "not-a-url" "007" (some "v3") stC2
    (by decide) rfl
  have h₂ := c8_invalid_prefix_fallback envC3 cfgC8 "not-a-url" "007" none stC2
    (by decide) rfl
  exact ⟨h.1 rfl, h₂.2 rfl rfl (by decide)⟩

/-- C9: `fetchValidatorRules_` uses only the fixed key `"validator-rules"`:
on a miss the provider is invoked with no arguments, the RuleSet's raw form
(not the parsed object) is stored under that key — every other key is
untouched — and the full RuleSet is returned; on a truthy hit the provider is
invoked with the cached raw bytes, the cache is unchanged, and the
reconstructed RuleSet is returned. -/
theorem c9_validator_rules_cache (env : Env) (s : St) (rs rs₂ : RuleSet) (raw : CacheValue) :
    (jsTruthyCV (cacheGet s KEY_VALIDATOR_RULES) = false → env.rulesFetch none = .ok rs →
      fetchValidatorRules_ env s
        = (.ok rs, cacheSet (pushRules s none) KEY_VALIDATOR_RULES (.str rs.raw)) ∧
      (fetchValidatorRules_ env s).2.rulesLog = s.rulesLog ++ [none] ∧
      cacheGet (fetchValidatorRules_ env s).2 KEY_VALIDATOR_RULES = some (.str rs.raw) ∧
      (∀ q, q ≠ KEY_VALIDATOR_RULES →
        cacheGet (fetchValidatorRules_ env s).2 q = cacheGet s q)) ∧
    (cacheGet s KEY_VALIDATOR_RULES = some raw → cvTruthy raw = true →
      env.rulesFetch (some raw) = .ok rs₂ →
      fetchValidatorRules_ env s = (.ok rs₂, pushRules s (some raw)) ∧
      (fetchValidatorRules_ env s).2.rulesLog = s.rulesLog ++ [some raw] ∧
      (fetchValidatorRules_ env s).2.cache = s.cache) := by
  refine ⟨?_, ?_⟩
  · intro hm hr
    have heq : fetchValidatorRules_ env s
        = (.ok rs, cacheSet (pushRules s none) KEY_VALIDATOR_RULES (.str rs.raw)) := by
      rw [rules_miss hm, rm_ok hr]
    refine ⟨heq, ?_, ?_, ?_⟩
    · rw [heq]
      simp [cacheSet, pushRules]
    · rw [heq]
      exact cacheGet_set_same _ _ _
    · intro q hq
      rw [heq]
      exact cacheGet_set_other _ _ _ _ hq
  · intro hc ht hr
    have heq : fetchValidatorRules_ env s = (.ok rs₂, pushRules s (some raw)) := by
      rw [rules_hit hc ht, hr]
    refine ⟨heq, ?_, ?_⟩
    · rw [heq]
      simp [pushRules]
    · rw [heq]
      rfl

def envC9 : Env :=
  { isAbsoluteUrl := fun _ => false,
    rulesFetch := fun a => match a with
      | none => .ok ⟨"raw9", "full9"⟩
      | some (.str x) => .ok ⟨x, "rehydrated"⟩
      | some _ => .error (.jsError "badcache") }

def stC9 : St :=
  { cache := fun k => if k = "validator-rules" then some (.str "cachedraw") else none,
    broken := fun _ => false, now := 0, log := [], versionLog := [], fetchLog := [],
    rulesLog := [], customParams := {} }

theorem c9_witness :
    (fetchValidatorRules_ envC9 stC2
       = (.ok ⟨"raw9", "full9"⟩,
          cacheSet (pushRules stC2 none) KEY_VALIDATOR_RULES (.str "raw9")) ∧
     cacheGet (fetchValidatorRules_ envC9 stC2).2 KEY_VALIDATOR_RULES
       = some (.str "raw9") ∧
     cacheGet (fetchValidatorRules_ envC9 stC2).2 "other-key" = cacheGet stC2 "other-key") ∧
    (fetchValidatorRules_ envC9 stC9
       = (.ok ⟨"cachedraw", "rehydrated"⟩, pushRules stC9 (some (.str "cachedraw"))) ∧
     (fetchValidatorRules_ envC9 stC9).2.cache = stC9.cache) := by
  have h₁ := (c9_validator_rules_cache envC9 stC2 ⟨"raw9", "full9"⟩ ⟨"raw9", "full9"⟩
    (.str "x")).1 rfl rfl
  have h₂ := (c9_validator_rules_cache envC9 stC9 ⟨"raw9", "full9"⟩
    ⟨"cachedraw", "rehydrated"⟩ (.str "cachedraw")).2 rfl rfl rfl
  exact ⟨⟨h₁.1, h₁.2.2.1, h₁.2.2.2 "other-key" (by decide)⟩, ⟨h₂.1, h₂.2.2⟩⟩

end AmpOptimizer
